import Mathlib

/-!
Verification of the VISP core (src/main.rs): the selection/mode state
machine, the bijective base-26 column labeler, row/column size resolution,
and the renderer's viewport clipping.

Machine integers (`u16` in the source) are modelled as `Nat`.  `add_clamp`
saturates at `u16::MAX = 65535` exactly as the source does, and the one
place where `u16` addition can genuinely overflow on reachable values
(`self.row + self.rows` in `Selection::row_selected`) is modelled with an
explicit `% 2^16`.
-/

namespace Visp

/-- The value of `u16::MAX` used by `add_clamp` in src/main.rs. -/
def u16Max : Nat := 65535

/-- Embeds `fn add_clamp(val: &mut u16)` (src/main.rs lines 29-33):
increment by one, saturating at `u16::MAX`. -/
def add_clamp (val : Nat) : Nat :=
  if val < u16Max then val + 1 else val

/-- Embeds `fn sub_clamp(val: &mut u16, min: u16)` (src/main.rs lines 35-39):
decrement by one, stopping at `min`. -/
def sub_clamp (val min : Nat) : Nat :=
  if val > min then val - 1 else val

/-- Embeds `struct Selection` (src/main.rs); all four fields are `u16`. -/
structure Selection where
  row : Nat
  col : Nat
  rows : Nat
  cols : Nat
  deriving DecidableEq

/-- Embeds `Selection::set_single`. -/
def Selection.set_single (s : Selection) : Selection :=
  { s with rows := 1, cols := 1 }

/-- Embeds `Selection::row_selected`.  The source computes
`self.row + self.rows` in `u16`, so the sum wraps modulo `2^16` (release
semantics; a debug build would panic at the same inputs). -/
def Selection.row_selected (s : Selection) (row : Nat) : Bool :=
  decide (row ≥ s.row) && decide (row < (s.row + s.rows) % 65536)

/-- Embeds `Selection::col_selected`, with the same `u16` addition. -/
def Selection.col_selected (s : Selection) (col : Nat) : Bool :=
  decide (col ≥ s.col) && decide (col < (s.col + s.cols) % 65536)

/-- Embeds `Selection::selected`. -/
def Selection.selected (s : Selection) (row col : Nat) : Bool :=
  s.row_selected row && s.col_selected col

/-- Embeds `enum AppMode`. -/
inductive AppMode
  | Normal
  | Visual
  deriving DecidableEq

/-- The normalized command set delivered by the host loop (spec section 6).
`Quit` only terminates the loop and is not a state transition, so it is not
modelled. -/
inductive Command
  | MoveUp
  | MoveDown
  | MoveLeft
  | MoveRight
  | EnterVisual
  | Cancel
  deriving DecidableEq

/-- Embeds one pass of the key-handling block of `main`
(src/main.rs lines 79-113): `j`/`k`/`l`/`h` are MoveDown/MoveUp/MoveRight/
MoveLeft, `Esc` is Cancel, `v` is EnterVisual.  A single key event matches
exactly one of the source's equality tests, so the sequence of `if`s
collapses to a case split on the command. -/
def step (st : AppMode × Selection) (cmd : Command) : AppMode × Selection :=
  let mode := st.1
  let sel := st.2
  match cmd with
  | .MoveDown =>
      if mode = .Normal then (mode, { sel with row := add_clamp sel.row })
      else (mode, { sel with rows := add_clamp sel.rows })
  | .MoveUp =>
      if mode = .Normal then (mode, { sel with row := sub_clamp sel.row 0 })
      else (mode, { sel with rows := sub_clamp sel.rows 1 })
  | .MoveRight =>
      if mode = .Normal then (mode, { sel with col := add_clamp sel.col })
      else (mode, { sel with cols := add_clamp sel.cols })
  | .MoveLeft =>
      if mode = .Normal then (mode, { sel with col := sub_clamp sel.col 0 })
      else (mode, { sel with cols := sub_clamp sel.cols 1 })
  | .Cancel => (AppMode.Normal, sel.set_single)
  | .EnterVisual => (AppMode.Visual, sel)

/-- The selection constructed in `main`: anchor (0,0), extent (1,1). -/
def initSelection : Selection := ⟨0, 0, 1, 1⟩

/-- The initial state of `main`: Normal mode with the initial selection. -/
def initState : AppMode × Selection := (AppMode.Normal, initSelection)

/-- Runs a sequence of commands from the initial state. -/
def run (cmds : List Command) : AppMode × Selection :=
  cmds.foldl step initState

lemma add_clamp_eq_min (v : Nat) (h : v ≤ u16Max) : add_clamp v = min (v + 1) u16Max := by
  unfold add_clamp u16Max at *
  split <;> omega

lemma sub_clamp_zero (v : Nat) : sub_clamp v 0 = v - 1 := by
  unfold sub_clamp
  split <;> omega

lemma sub_clamp_one (v : Nat) (h : 1 ≤ v) : sub_clamp v 1 = max (v - 1) 1 := by
  unfold sub_clamp
  split <;> omega

/-- Claim C1 fails as stated: at anchor row `u16::MAX` with extent (3,2),
`MoveDown` in Normal mode neither advances the anchor by one (it saturates
at `u16::MAX`) nor resets the extent to (1,1) (Normal-mode moves never
touch the extent fields). -/
theorem C1_counterexample :
    (step (AppMode.Normal, ⟨65535, 0, 3, 2⟩) Command.MoveDown).2.row ≠ 65535 + 1 ∧
    (step (AppMode.Normal, ⟨65535, 0, 3, 2⟩) Command.MoveDown).2.rows ≠ 1 := by
  decide

/-- Claim C1 (amended): a directional command in Normal mode keeps the mode,
leaves the extent (and the other anchor coordinate) unchanged, and moves the
anchor by one cell in that direction, saturating at 0 for up/left and at
`u16::MAX` for down/right. -/
theorem C1_normal_moves (sel : Selection) (hr : sel.row ≤ u16Max) (hc : sel.col ≤ u16Max) :
    step (AppMode.Normal, sel) Command.MoveDown
      = (AppMode.Normal, { sel with row := min (sel.row + 1) u16Max }) ∧
    step (AppMode.Normal, sel) Command.MoveUp
      = (AppMode.Normal, { sel with row := sel.row - 1 }) ∧
    step (AppMode.Normal, sel) Command.MoveRight
      = (AppMode.Normal, { sel with col := min (sel.col + 1) u16Max }) ∧
    step (AppMode.Normal, sel) Command.MoveLeft
      = (AppMode.Normal, { sel with col := sel.col - 1 }) := by
  refine ⟨?_, ?_, ?_, ?_⟩ <;>
    simp [step, add_clamp_eq_min, sub_clamp_zero, hr, hc]

/-- Witness for C1_normal_moves at the initial selection. -/
theorem C1_witness :
    step (AppMode.Normal, ⟨0, 0, 1, 1⟩) Command.MoveDown
      = (AppMode.Normal, { (⟨0, 0, 1, 1⟩ : Selection) with row := min (0 + 1) u16Max }) ∧
    step (AppMode.Normal, ⟨0, 0, 1, 1⟩) Command.MoveUp
      = (AppMode.Normal, { (⟨0, 0, 1, 1⟩ : Selection) with row := 0 - 1 }) ∧
    step (AppMode.Normal, ⟨0, 0, 1, 1⟩) Command.MoveRight
      = (AppMode.Normal, { (⟨0, 0, 1, 1⟩ : Selection) with col := min (0 + 1) u16Max }) ∧
    step (AppMode.Normal, ⟨0, 0, 1, 1⟩) Command.MoveLeft
      = (AppMode.Normal, { (⟨0, 0, 1, 1⟩ : Selection) with col := 0 - 1 }) :=
  C1_normal_moves ⟨0, 0, 1, 1⟩ (by decide) (by decide)

/-- Claim C2 fails as stated: with extent rows already at `u16::MAX`,
`MoveDown` in Visual mode does not increase it — the growth is clamped at
`u16::MAX`, contradicting "no upper clamp". -/
theorem C2_counterexample :
    (step (AppMode.Visual, ⟨0, 0, 65535, 1⟩) Command.MoveDown).2.rows ≠ 65535 + 1 := by
  decide

/-- Claim C2 (amended): a directional command in Visual mode keeps the mode
and the anchor; down/right grow the corresponding extent component by one,
saturating at `u16::MAX`; up/left shrink it by one but never below 1. -/
theorem C2_visual_moves (sel : Selection)
    (hr1 : 1 ≤ sel.rows) (hc1 : 1 ≤ sel.cols)
    (hr : sel.rows ≤ u16Max) (hc : sel.cols ≤ u16Max) :
    step (AppMode.Visual, sel) Command.MoveDown
      = (AppMode.Visual, { sel with rows := min (sel.rows + 1) u16Max }) ∧
    step (AppMode.Visual, sel) Command.MoveUp
      = (AppMode.Visual, { sel with rows := max (sel.rows - 1) 1 }) ∧
    step (AppMode.Visual, sel) Command.MoveRight
      = (AppMode.Visual, { sel with cols := min (sel.cols + 1) u16Max }) ∧
    step (AppMode.Visual, sel) Command.MoveLeft
      = (AppMode.Visual, { sel with cols := max (sel.cols - 1) 1 }) := by
  refine ⟨?_, ?_, ?_, ?_⟩ <;>
    simp [step, add_clamp_eq_min, sub_clamp_one, hr1, hc1, hr, hc]

/-- Witness for C2_visual_moves at extent (2,1). -/
theorem C2_witness :
    step (AppMode.Visual, ⟨0, 0, 2, 1⟩) Command.MoveDown
      = (AppMode.Visual, { (⟨0, 0, 2, 1⟩ : Selection) with rows := min (2 + 1) u16Max }) ∧
    step (AppMode.Visual, ⟨0, 0, 2, 1⟩) Command.MoveUp
      = (AppMode.Visual, { (⟨0, 0, 2, 1⟩ : Selection) with rows := max (2 - 1) 1 }) ∧
    step (AppMode.Visual, ⟨0, 0, 2, 1⟩) Command.MoveRight
      = (AppMode.Visual, { (⟨0, 0, 2, 1⟩ : Selection) with cols := min (1 + 1) u16Max }) ∧
    step (AppMode.Visual, ⟨0, 0, 2, 1⟩) Command.MoveLeft
      = (AppMode.Visual, { (⟨0, 0, 2, 1⟩ : Selection) with cols := max (1 - 1) 1 }) :=
  C2_visual_moves ⟨0, 0, 2, 1⟩ (by decide) (by decide) (by decide) (by decide)

/-- Claim C5 fails as stated: with anchor row `u16::MAX` and extent rows 1,
the `u16` sum `row + rows` wraps to 0, so `selected(65535, 0)` is false even
though `row ≤ 65535 < row + rows` and `col ≤ 0 < col + cols` hold. -/
theorem C5_counterexample :
    Selection.selected ⟨65535, 0, 1, 1⟩ 65535 0 = false ∧
    65535 ≤ 65535 ∧ 65535 < 65535 + 1 ∧ 0 ≤ 0 ∧ (0 : Nat) < 0 + 1 := by
  decide

/-- Claim C5 (amended): when `anchor.row + extent.rows` and
`anchor.col + extent.cols` do not overflow `u16`, a cell (r,c) is selected
iff `row ≤ r < row + rows` and `col ≤ c < col + cols`; the spec's concrete
cases at anchor (1,1), extent (2,2) hold. -/
theorem C5_selected_iff (s : Selection) (r c : Nat)
    (h1 : s.row + s.rows < 65536) (h2 : s.col + s.cols < 65536) :
    (s.selected r c = true ↔
      (s.row ≤ r ∧ r < s.row + s.rows ∧ s.col ≤ c ∧ c < s.col + s.cols)) ∧
    (Selection.selected ⟨1, 1, 2, 2⟩ 1 1 = true ∧
     Selection.selected ⟨1, 1, 2, 2⟩ 2 2 = true ∧
     Selection.selected ⟨1, 1, 2, 2⟩ 0 0 = false ∧
     Selection.selected ⟨1, 1, 2, 2⟩ 3 3 = false) := by
  constructor
  · simp only [Selection.selected, Selection.row_selected, Selection.col_selected,
      Nat.mod_eq_of_lt h1, Nat.mod_eq_of_lt h2, Bool.and_eq_true, decide_eq_true_eq]
    omega
  · decide

/-- Witness for C5_selected_iff at anchor (1,1), extent (2,2), cell (2,2). -/
theorem C5_witness :
    (Selection.selected ⟨1, 1, 2, 2⟩ 2 2 = true ↔
      (1 ≤ 2 ∧ 2 < 1 + 2 ∧ 1 ≤ 2 ∧ 2 < 1 + 2)) ∧
    (Selection.selected ⟨1, 1, 2, 2⟩ 1 1 = true ∧
     Selection.selected ⟨1, 1, 2, 2⟩ 2 2 = true ∧
     Selection.selected ⟨1, 1, 2, 2⟩ 0 0 = false ∧
     Selection.selected ⟨1, 1, 2, 2⟩ 3 3 = false) :=
  C5_selected_iff ⟨1, 1, 2, 2⟩ 2 2 (by decide) (by decide)

/-- Claim C6: from either mode, Cancel yields Normal mode, resets the extent
to (1,1) and leaves the anchor unchanged; in particular from Normal mode the
mode is unchanged (idempotence on the mode). -/
theorem C6_cancel (mode : AppMode) (sel : Selection) :
    step (mode, sel) Command.Cancel = (AppMode.Normal, ⟨sel.row, sel.col, 1, 1⟩) := by
  rfl

lemma step_extent_ge_one (st : AppMode × Selection) (cmd : Command)
    (h : 1 ≤ st.2.rows ∧ 1 ≤ st.2.cols) :
    1 ≤ (step st cmd).2.rows ∧ 1 ≤ (step st cmd).2.cols := by
  obtain ⟨m, s⟩ := st
  obtain ⟨h1, h2⟩ := h
  simp only at h1 h2
  cases cmd <;> cases m <;>
    simp [step, add_clamp, sub_clamp, Selection.set_single] <;>
    first
      | omega
      | (constructor <;> first | omega | (split <;> omega))

lemma foldl_extent_ge_one (cmds : List Command) :
    ∀ st : AppMode × Selection, 1 ≤ st.2.rows ∧ 1 ≤ st.2.cols →
      1 ≤ (cmds.foldl step st).2.rows ∧ 1 ≤ (cmds.foldl step st).2.cols := by
  induction cmds with
  | nil => intro st h; simpa using h
  | cons cmd rest ih =>
      intro st h
      simpa using ih (step st cmd) (step_extent_ge_one st cmd h)

/-- Claim C9: in every state reachable from the initial state by any
sequence of commands, the extent is at least 1 in both axes and the anchor
coordinates are non-negative (the latter holds by the `Nat`/`u16`
representation). -/
theorem C9_reachable_invariant (cmds : List Command) :
    1 ≤ (run cmds).2.rows ∧ 1 ≤ (run cmds).2.cols ∧
    0 ≤ (run cmds).2.row ∧ 0 ≤ (run cmds).2.col := by
  have h := foldl_extent_ge_one cmds initState (by decide)
  exact ⟨h.1, h.2, Nat.zero_le _, Nat.zero_le _⟩

lemma step_normal_single (st : AppMode × Selection) (cmd : Command)
    (h : st.1 = AppMode.Normal → st.2.rows = 1 ∧ st.2.cols = 1) :
    (step st cmd).1 = AppMode.Normal →
      (step st cmd).2.rows = 1 ∧ (step st cmd).2.cols = 1 := by
  obtain ⟨m, s⟩ := st
  cases cmd <;> cases m <;>
    simp [step, Selection.set_single] at h ⊢ <;> exact h

lemma foldl_normal_single (cmds : List Command) :
    ∀ st : AppMode × Selection,
      (st.1 = AppMode.Normal → st.2.rows = 1 ∧ st.2.cols = 1) →
      (cmds.foldl step st).1 = AppMode.Normal →
        (cmds.foldl step st).2.rows = 1 ∧ (cmds.foldl step st).2.cols = 1 := by
  induction cmds with
  | nil => intro st h; simpa using h
  | cons cmd rest ih =>
      intro st h
      simpa using ih (step st cmd) (step_normal_single st cmd h)

/-- Claim C10: in every reachable state, whenever the mode is Normal the
extent is exactly (1,1) — the initial state starts that way, Normal-mode
moves do not touch the extent, and the only other entry into Normal mode
(Cancel) resets the extent. -/
theorem C10_normal_collapsed (cmds : List Command)
    (h : (run cmds).1 = AppMode.Normal) :
    (run cmds).2.rows = 1 ∧ (run cmds).2.cols = 1 :=
  foldl_normal_single cmds initState (fun _ => by decide) h

/-- Witness for C10_normal_collapsed: enter Visual, grow the extent, Cancel. -/
theorem C10_witness :
    (run [Command.EnterVisual, Command.MoveDown, Command.MoveRight, Command.Cancel]).2.rows = 1 ∧
    (run [Command.EnterVisual, Command.MoveDown, Command.MoveRight, Command.Cancel]).2.cols = 1 :=
  C10_normal_collapsed [Command.EnterVisual, Command.MoveDown, Command.MoveRight, Command.Cancel]
    (by decide)

/-- Embeds `fn col_nr_to_label(col: u16) -> String` (src/main.rs lines
20-27): bijective base-26 column labels.  The source recursion is total on
all non-negative inputs (both recursive arguments are strictly smaller). -/
def col_nr_to_label (col : Nat) : String :=
  if col < 26 then
    String.mk [Char.ofNat ('A'.toNat + col)]
  else
    let front := col / 26
    col_nr_to_label (front - 1) ++ col_nr_to_label (col - 26 * front)
termination_by col
decreasing_by
  all_goals omega

/-- Modelled from the spec: the inverse bijective-base-26 mapping used for
round-trip testing — each letter is a digit in 1..26 read most significant
first, and the final value is one less than the digit expansion. -/
def label_decode_step (acc : Nat) (c : Char) : Nat :=
  acc * 26 + (c.toNat - 'A'.toNat + 1)

/-- Modelled from the spec: decode a bijective base-26 label back to its
zero-based column index. -/
def label_decode (s : String) : Nat :=
  s.data.foldl label_decode_step 0 - 1

lemma char_ofNat_toNat (n : Nat) (h : n < 26) :
    (Char.ofNat (65 + n)).toNat = 65 + n := by
  interval_cases n <;> decide

lemma label_small (n : Nat) (h : n < 26) :
    col_nr_to_label n = String.mk [Char.ofNat ('A'.toNat + n)] := by
  rw [col_nr_to_label]
  simp [h]

lemma data_append (s t : String) : (s ++ t).data = s.data ++ t.data := by
  cases s; cases t; rfl

lemma label_decode_aux (n : Nat) :
    (col_nr_to_label n).data.foldl label_decode_step 0 = n + 1 := by
  induction n using Nat.strong_induction_on with
  | _ n ih =>
    by_cases h : n < 26
    · rw [label_small n h]
      simp only [String.data, List.foldl, label_decode_step]
      rw [show Char.toNat 'A' = 65 from rfl, char_ofNat_toNat n h]
      omega
    · rw [col_nr_to_label]
      simp only [h, if_false]
      rw [data_append, List.foldl_append]
      have hmod : n - 26 * (n / 26) = n % 26 := by omega
      rw [hmod]
      rw [ih (n / 26 - 1) (by omega)]
      rw [label_small (n % 26) (by omega)]
      simp only [String.data, List.foldl, label_decode_step]
      rw [show Char.toNat 'A' = 65 from rfl, char_ofNat_toNat (n % 26) (by omega)]
      omega

/-- Claim C3: the labeler follows the bijective base-26 recursion — a single
letter for indices below 26, otherwise the label of `n div 26 - 1` followed
by the label of `n - 26 * (n div 26)` — and matches the spec's concrete label
scenarios. -/
theorem C3_label_recursion (n : Nat) :
    (n < 26 → col_nr_to_label n = String.mk [Char.ofNat ('A'.toNat + n)]) ∧
    (26 ≤ n → col_nr_to_label n
      = col_nr_to_label (n / 26 - 1) ++ col_nr_to_label (n - 26 * (n / 26))) ∧
    (col_nr_to_label 0 = "A" ∧ col_nr_to_label 25 = "Z" ∧
     col_nr_to_label 26 = "AA" ∧ col_nr_to_label 51 = "AZ" ∧
     col_nr_to_label 52 = "BA" ∧ col_nr_to_label 701 = "ZZ" ∧
     col_nr_to_label 702 = "AAA") := by
  refine ⟨fun h => label_small n h, fun h => ?_, ?_⟩
  · rw [col_nr_to_label]
    simp [Nat.not_lt.mpr h]
  · refine ⟨?_, ?_, ?_, ?_, ?_, ?_, ?_⟩ <;> simp [col_nr_to_label]

/-- Witness for C3_label_recursion at index 27 (= "AB"). -/
theorem C3_witness :
    col_nr_to_label 27 = col_nr_to_label (27 / 26 - 1) ++ col_nr_to_label (27 - 26 * (27 / 26)) :=
  (C3_label_recursion 27).2.1 (by decide)

/-- Claim C4: decoding the emitted label under the inverse bijective-base-26
mapping returns the index, for every index below 10000 (the proof in fact
never uses the bound). -/
theorem C4_label_roundtrip (n : Nat) (h : n < 10000) :
    label_decode (col_nr_to_label n) = n := by
  unfold label_decode
  rw [label_decode_aux]
  omega

/-- Witness for C4_label_roundtrip at index 702. -/
theorem C4_witness : label_decode (col_nr_to_label 702) = 702 :=
  C4_label_roundtrip 702 (by decide)

/-- Embeds `enum TableCell`. -/
inductive TableCell
  | Empty
  | Str (s : String)
  | Value (v : Int)
  deriving DecidableEq

/-- Embeds `TableCell::format_string`. -/
def TableCell.format_string : TableCell → String
  | .Empty => ""
  | .Str s => s
  | .Value v => toString v

/-- Embeds `struct TableContent`. -/
structure TableContent where
  cells : List (List TableCell)
  col_widths : List Nat
  row_heights : List Nat
  selection : Selection

/-- Embeds the size-resolution expressions of `Table::render`
(src/main.rs lines 227 and 233):
`idx.and_then(|i| overrides.get(i)).map(|v| *v).unwrap_or(default)`.
The header row/column passes `None` and resolves to the default. -/
def size_res (overrides : List Nat) (dflt : Nat) (idx : Option Nat) : Nat :=
  (idx.bind fun i => overrides.get? i).getD dflt

/-- Claim C7: size resolution returns the explicit override when the index
is inside the overrides sequence and the fixed default otherwise; it is
positive whenever the overrides and the default are positive (as they are
for the defaults 1 and 4 and the program's literal overrides); and the
spec's concrete scenario holds for column widths [10,5] with default 4 and
no explicit row heights with default 1. -/
theorem C7_size_resolution :
    (∀ (ov : List Nat) (d i v : Nat), ov.get? i = some v → size_res ov d (some i) = v) ∧
    (∀ (ov : List Nat) (d i : Nat), ov.length ≤ i → size_res ov d (some i) = d) ∧
    (∀ (ov : List Nat) (d : Nat) (idx : Option Nat),
      (∀ v ∈ ov, 0 < v) → 0 < d → 0 < size_res ov d idx) ∧
    (size_res [10, 5] 4 (some 0) = 10 ∧ size_res [10, 5] 4 (some 1) = 5 ∧
     size_res [10, 5] 4 (some 2) = 4 ∧ size_res [] 1 (some 0) = 1) := by
  refine ⟨?_, ?_, ?_, by decide⟩
  · intro ov d i v h
    rw [List.get?_eq_getElem?] at h
    simp [size_res, h]
  · intro ov d i h
    simp [size_res, List.getElem?_eq_none h]
  · intro ov d idx hov hd
    cases idx with
    | none => simpa [size_res] using hd
    | some i =>
        cases hv : ov.get? i with
        | none =>
            rw [List.get?_eq_getElem?] at hv
            simpa [size_res, hv] using hd
        | some v =>
            have hmem : v ∈ ov := List.get?_mem hv
            rw [List.get?_eq_getElem?] at hv
            simpa [size_res, hv] using hov v hmem

/-- Witness for C7_size_resolution: the override 5 at column index 1. -/
theorem C7_witness : size_res [10, 5] 4 (some 1) = 5 :=
  C7_size_resolution.1 [10, 5] 4 1 5 rfl

/-- Embeds `tui::layout::Rect` (fields are `u16` in tui; coordinates are
modelled as `Nat`, relying on tui's documented invariant that
`x + width` and `y + height` do not overflow). -/
structure Rect where
  x : Nat
  y : Nat
  width : Nat
  height : Nat
  deriving DecidableEq

/-- Embeds `Rect::intersection` from tui: the overlap rectangle.  `Nat`
subtraction truncates at 0 where the `u16` subtraction would underflow for
disjoint rectangles; the renderer only intersects a cell rectangle whose
origin lies inside the viewport, where no underflow occurs. -/
def Rect.intersection (a b : Rect) : Rect :=
  ⟨max a.x b.x, max a.y b.y,
   min (a.x + a.width) (b.x + b.width) - max a.x b.x,
   min (a.y + a.height) (b.y + b.height) - max a.y b.y⟩

/-- Membership of a buffer position in a rectangle. -/
def Rect.containsPt (a : Rect) (px py : Nat) : Bool :=
  decide (a.x ≤ px) && decide (px < a.x + a.width) &&
  decide (a.y ≤ py) && decide (py < a.y + a.height)

/-- One emission of `Table::render` into the screen buffer.  `cell` is one
`draw_cell` call: clear `rect`, then write the formatted text at the rect's
origin clipped to `rect.width` (`buf.set_stringn`).  `str` is one unclipped
`buf.set_string` call, used for the two headers and the corner marker. -/
inductive BufWrite
  | cell (rect : Rect) (text : Option String) (selected : Bool)
  | str (x : Nat) (y : Nat) (text : String) (highlighted : Bool)
  deriving DecidableEq

/-- The buffer positions a write touches: for `cell`, the cleared rectangle
plus the first-row text span (at most `rect.width` wide, so it adds points
only when the rectangle has height 0); for `str`, one position per
character starting at `(x, y)`. -/
def BufWrite.covers : BufWrite → Nat → Nat → Bool
  | .cell r t _, px, py =>
      ((r.containsPt px py) ||
        (match t with
         | some s =>
             decide (py = r.y) && decide (r.x ≤ px) &&
             decide (px < r.x + min s.length r.width)
         | none => false))
  | .str x y s _, px, py =>
      decide (py = y) && decide (x ≤ px) && decide (px < x + s.length)

/-- The body of the inner loop of `Table::render` (src/main.rs lines
235-263): the single emission for the current screen cell, split on whether
the walk is at the header row and/or the header column. -/
def colWrite (tc : TableContent) (area : Rect) (table_row table_col : Option Nat)
    (x y col_width row_height : Nat) : BufWrite :=
  match table_row, table_col with
  | some tr, some tcc =>
      BufWrite.cell (Rect.intersection ⟨x, y, col_width, row_height⟩ area)
        (((tc.cells.get? tr).bind fun r => r.get? tcc).map TableCell.format_string)
        (tc.selection.selected tr tcc)
  | some tr, none =>
      BufWrite.str x y (Nat.repr (tr + 1)) (tc.selection.row_selected tr)
  | none, some tcc =>
      BufWrite.str x y (col_nr_to_label tcc) (tc.selection.col_selected tcc)
  | none, none => BufWrite.str x y "**" false

/-- Embeds the inner (column) loop of `Table::render` (src/main.rs lines
231-263).  `fuel` bounds the iteration count: whenever every resolved column
width is at least 1 the loop advances `x` each round, so the `area.width + 1`
budget passed by `renderRows` is never exhausted before the guard fails
(on a zero-width override the source loop never advances and diverges). -/
def renderCols (tc : TableContent) (area : Rect) (table_row : Option Nat)
    (y row_height : Nat) : Nat → Nat → Nat → List BufWrite
  | 0, _, _ => []
  | fuel + 1, col, x =>
    if x < area.x + area.width then
      let table_col := if col = 0 then none else some (col - 1)
      let col_width := size_res tc.col_widths 4 table_col
      colWrite tc area table_row table_col x y col_width row_height ::
        renderCols tc area table_row y row_height fuel (col + 1) (x + col_width)
    else []

/-- Embeds the outer (row) loop of `Table::render` (src/main.rs lines
222-268); fuel as in `renderCols`. -/
def renderRows (tc : TableContent) (area : Rect) : Nat → Nat → Nat → List BufWrite
  | 0, _, _ => []
  | fuel + 1, row, y =>
    if y < area.y + area.height then
      let table_row := if row = 0 then none else some (row - 1)
      let row_height := size_res tc.row_heights 1 table_row
      renderCols tc area table_row y row_height (area.width + 1) 0 area.x ++
        renderRows tc area fuel (row + 1) (y + row_height)
    else []

/-- Embeds `Table::render`: walk the viewport from its top-left corner. -/
def render (tc : TableContent) (area : Rect) : List BufWrite :=
  renderRows tc area (area.height + 1) 0 area.y

/-- The `TableContent` literal constructed in `main` (src/main.rs lines
48-64). -/
def visp_table : TableContent :=
  { cells := [
      [TableCell.Str "Value", TableCell.Value 10, TableCell.Value 10],
      [TableCell.Str "Value", TableCell.Value 20, TableCell.Value 10],
      [TableCell.Str "Value", TableCell.Empty, TableCell.Value 10],
      [TableCell.Str "Value", TableCell.Value 20, TableCell.Value 10]],
    col_widths := [10, 5],
    row_heights := [1, 2],
    selection := ⟨0, 0, 1, 1⟩ }

/-- Claim C8 fails as stated: in a 1x1 viewport at the origin, the corner
marker "**" is emitted by an unclipped `set_string` and its second character
lands at (1,0), outside the viewport.  Only content cells are intersected
with the viewport. -/
theorem C8_counterexample :
    ∃ w ∈ render visp_table ⟨0, 0, 1, 1⟩,
      ∃ px py, w.covers px py = true ∧ Rect.containsPt ⟨0, 0, 1, 1⟩ px py = false := by
  refine ⟨BufWrite.str 0 0 "**" false, by decide, 1, 0, by decide, by decide⟩

/-- A write respects the viewport in the sense the renderer guarantees: a
content-cell write keeps its whole footprint inside the viewport (it was
intersected before emission), while a header/corner `set_string` write only
starts inside the viewport — its text may overrun the right edge. -/
def WriteClipped (area : Rect) : BufWrite → Prop
  | .cell r t sel => ∀ px py,
      (BufWrite.cell r t sel).covers px py = true → area.containsPt px py = true
  | .str x y _ _ => area.containsPt x y = true

lemma cell_write_clipped (area : Rect) (x y w h : Nat) (t : Option String) (sel : Bool)
    (hy1 : area.y ≤ y) (hy2 : y < area.y + area.height) :
    WriteClipped area (BufWrite.cell (Rect.intersection ⟨x, y, w, h⟩ area) t sel) := by
  intro px py hcov
  cases t with
  | none =>
      simp only [BufWrite.covers, Rect.intersection, Rect.containsPt, Bool.or_eq_true,
        Bool.and_eq_true, decide_eq_true_eq, Bool.or_false] at hcov ⊢
      omega
  | some s =>
      simp only [BufWrite.covers, Rect.intersection, Rect.containsPt, Bool.or_eq_true,
        Bool.and_eq_true, decide_eq_true_eq] at hcov ⊢
      rcases hcov with h1 | h2 <;> omega

lemma colWrite_clipped (tc : TableContent) (area : Rect)
    (table_row table_col : Option Nat) (x y col_width row_height : Nat)
    (hx1 : area.x ≤ x) (hx2 : x < area.x + area.width)
    (hy1 : area.y ≤ y) (hy2 : y < area.y + area.height) :
    WriteClipped area (colWrite tc area table_row table_col x y col_width row_height) := by
  cases table_row <;> cases table_col <;>
    simp only [colWrite] <;>
    first
      | exact cell_write_clipped area x y col_width row_height _ _ hy1 hy2
      | (show Rect.containsPt area x y = true
         simp only [Rect.containsPt, Bool.and_eq_true, decide_eq_true_eq]
         omega)

lemma renderCols_clipped (tc : TableContent) (area : Rect) (table_row : Option Nat)
    (y row_height : Nat) (hy1 : area.y ≤ y) (hy2 : y < area.y + area.height) :
    ∀ (fuel col x : Nat), area.x ≤ x →
      ∀ w ∈ renderCols tc area table_row y row_height fuel col x,
        WriteClipped area w := by
  intro fuel
  induction fuel with
  | zero =>
      intro col x _ w hw
      simp [renderCols] at hw
  | succ n ih =>
      intro col x hx w hw
      rw [renderCols] at hw
      by_cases hguard : x < area.x + area.width
      · rw [if_pos hguard] at hw
        simp only [List.mem_cons] at hw
        rcases hw with rfl | hw
        · exact colWrite_clipped tc area table_row _ x y _ row_height hx hguard hy1 hy2
        · exact ih (col + 1) _ (by omega) w hw
      · rw [if_neg hguard] at hw
        simp at hw

lemma renderRows_clipped (tc : TableContent) (area : Rect) :
    ∀ (fuel row y : Nat), area.y ≤ y →
      ∀ w ∈ renderRows tc area fuel row y, WriteClipped area w := by
  intro fuel
  induction fuel with
  | zero =>
      intro row y _ w hw
      simp [renderRows] at hw
  | succ n ih =>
      intro row y hy w hw
      rw [renderRows] at hw
      by_cases hguard : y < area.y + area.height
      · rw [if_pos hguard] at hw
        simp only [List.mem_append] at hw
        rcases hw with hw | hw
        · exact renderCols_clipped tc area _ y _ hy hguard (area.width + 1) 0 area.x le_rfl w hw
        · exact ih (row + 1) _ (by omega) w hw
      · rw [if_neg hguard] at hw
        simp at hw

/-- Claim C8 (amended): every content-cell write the renderer emits is
intersected with the viewport before emission, so its whole footprint lies
inside the viewport; the header-row labels, header-column row numbers and
the corner marker are emitted unclipped, but always start inside the
viewport (their text may only overrun the right edge). -/
theorem C8_render_clipping (tc : TableContent) (area : Rect) :
    ∀ w ∈ render tc area, WriteClipped area w := by
  intro w hw
  exact renderRows_clipped tc area (area.height + 1) 0 area.y le_rfl w hw

/-- Witness for C8_render_clipping: the corner-marker write in a 3x2
viewport starts inside the viewport. -/
theorem C8_witness : WriteClipped ⟨0, 0, 3, 2⟩ (BufWrite.str 0 0 "**" false) :=
  C8_render_clipping visp_table ⟨0, 0, 3, 2⟩ (BufWrite.str 0 0 "**" false) (by decide)

end Visp
